import Mathlib

/-!
Verification of the CIFAR-10 loading utility (rme/datasets/cifar10.py).

The Python module has three operations:
  * one_hotify(labels, nb_classes=None) : integer labels to one-hot rows;
  * load(data_dir, valid_ratio, one_hot, shuffle, dtype) : reads five
    training batch files and one test batch file, optionally one-hot
    encodes labels, optionally shuffles, splits a validation set, and
    reshapes flat 3072-entry rows into 32 x 32 x 3 images;
  * preprocess(dataset) : fixed per-channel mean/std normalization,
    mutating its argument in place.

Shallow embedding conventions: numpy numeric values are rationals (the
astype(dtype) cast is modelled as the identity), a numpy 2-d array is a
list of rows, a pickled batch file is a record with data and labels
fields, a directory is an association list from file names to batches,
and the random permutation drawn by np.random.permutation is an explicit
list-of-indices parameter.  Fallible numpy operations (np.max on an
empty array, fancy indexing out of range, shape-mismatched concatenate
or vstack, reshape with incompatible size) return Option; load returns
Except over an error type separating the two assertion messages,
file-not-found errors, and value errors.
-/

set_option allowUnsafeReducibility true

attribute [local semireducible] Rat.add Rat.sub Rat.mul Rat.div Rat.blt Rat.inv Rat.neg Rat.normalize

/-- A deserialized pickled batch: the data field (rows of numbers) and
the labels field (a list of small non-negative integers). -/
structure Batch where
  data : List (List ℚ)
  labels : List ℕ
deriving DecidableEq

/-- A directory: an association list from file names to batch files. -/
abbrev Dir := List (String × Batch)

/-- Errors surfaced by load: the two distinct assertion messages of the
source, a missing file, and numpy value/index/shape errors. -/
inductive LoadErr where
  | assertionError (msg : String)
  | fileNotFound (name : String)
  | valueError
deriving DecidableEq

/-- Row i of a one-hot matrix with k columns for label l:
np.zeros followed by the fancy assignment at column l. -/
def oneHotRow (k : ℕ) (l : ℕ) : List ℚ :=
  (List.range k).map (fun j => if j = l then 1 else 0)

/-- one_hotify(labels, nb_classes).  When nb_classes is None it is
inferred as np.max(labels) + 1 (np.max raises on an empty input, hence
none).  With an explicit nb_classes, the fancy assignment
one_hot_labels[np.arange(size), labels] = 1 raises IndexError when some
label is out of range, hence none. -/
def one_hotify (labels : List ℕ) (nb_classes : Option ℕ) : Option (List (List ℚ)) :=
  match nb_classes with
  | some k =>
      if labels.all (fun l => l < k) then some (labels.map (oneHotRow k)) else none
  | none =>
      match labels with
      | [] => none
      | _ :: _ => some (labels.map (oneHotRow (labels.foldl max 0 + 1)))

/-- Labels of a data set: either plain integers (one_hot=False) or a
one-hot matrix (one_hot=True). -/
inductive Labels where
  | ints (l : List ℕ)
  | oneHot (m : List (List ℚ))
deriving DecidableEq

/-- Encoding of one batch worth of labels inside load. -/
def encodeLabels (one_hot : Bool) (ls : List ℕ) : Option Labels :=
  if one_hot then (one_hotify ls none).map Labels.oneHot
  else some (Labels.ints ls)

/-- np.vstack on two 2-d arrays: the column counts must agree (an empty
operand imposes no constraint in this model; inside load both operands
are nonempty batch data). -/
def sameWidth (a b : List (List ℚ)) : Bool :=
  match a.head?, b.head? with
  | some ra, some rb => ra.length == rb.length
  | _, _ => true

/-- np.vstack((a, b)). -/
def vstack (a b : List (List ℚ)) : Option (List (List ℚ)) :=
  if sameWidth a b then some (a ++ b) else none

/-- np.concatenate((labels, batch_labels), axis=0): integer vectors
concatenate freely; one-hot matrices must have matching widths. -/
def concatLabels : Labels → Labels → Option Labels
  | Labels.ints a, Labels.ints b => some (Labels.ints (a ++ b))
  | Labels.oneHot a, Labels.oneHot b =>
      if sameWidth a b then some (Labels.oneHot (a ++ b)) else none
  | _, _ => none

/-- Character-list prefix test for the glob pattern. -/
def charsMatch : List Char → List Char → Bool
  | [], _ => true
  | _ :: _, [] => false
  | a :: as, b :: bs => a = b && charsMatch as bs

/-- Does a file name match the glob pattern data_batch_* ? -/
def globMatch (name : String) : Bool :=
  charsMatch "data_batch_".toList name.toList

/-- Number of files in the directory matching data_batch_*. -/
def globCount (dir : Dir) : ℕ :=
  (dir.filter (fun p => globMatch p.1)).length

/-- Reading a file by exact name (open(f_name, rb) + pickle.load). -/
def lookupFile (dir : Dir) (name : String) : Option Batch :=
  (dir.find? (fun p => p.1 = name)).map Prod.snd

/-- The five explicitly indexed file names data_batch_1 .. data_batch_5. -/
def batchFiles : List String :=
  (List.range 5).map (fun i => "data_batch_" ++ toString (i + 1))

/-- numpy fancy row indexing arr[order]: every index must be in range
(IndexError otherwise), and the result lists arr[order[0]], ... . -/
def npIndex {α : Type} (d : α) (arr : List α) (order : List ℕ) : Option (List α) :=
  if order.all (fun i => i < arr.length) then
    some (order.map (fun i => arr.getD i d))
  else none

/-- labels[new_order] for either label representation. -/
def reindexLabels : Labels → List ℕ → Option Labels
  | Labels.ints l, order => (npIndex 0 l order).map Labels.ints
  | Labels.oneHot m, order => (npIndex [] m order).map Labels.oneHot

/-- The shuffle block of load: one order reindexes both the data array
and the labels array. -/
def applyShuffle (dataSet : List (List ℚ)) (labels : Labels) (order : List ℕ) :
    Option (List (List ℚ) × Labels) :=
  match npIndex [] dataSet order, reindexLabels labels order with
  | some d, some l => some (d, l)
  | _, _ => none

/-- labels[:M]. -/
def labelsTake (m : ℕ) : Labels → Labels
  | Labels.ints l => Labels.ints (l.take m)
  | Labels.oneHot mat => Labels.oneHot (mat.take m)

/-- labels[M:]. -/
def labelsDrop (m : ℕ) : Labels → Labels
  | Labels.ints l => Labels.ints (l.drop m)
  | Labels.oneHot mat => Labels.oneHot (mat.drop m)

/-- Python int(q): truncation toward zero. -/
def pyInt (q : ℚ) : ℤ :=
  if q < 0 then -⌊-q⌋ else ⌊q⌋

/-- M = int((1 - valid_ratio) * N), clamped to ℕ for slicing (inside
load the assertion guarantees the value is non-negative). -/
def splitIndex (vr : ℚ) (n : ℕ) : ℕ :=
  (pyInt ((1 - vr) * n)).toNat

/-- One image: 32 rows of 32 columns of 3 channel values. -/
abbrev Image := List (List (List ℚ))

/-- Reshape a flat 3072-entry slice to channel-first (3, 32, 32),
row-major as numpy reshape does. -/
def reshapeCHW (flat : List ℚ) : List (List (List ℚ)) :=
  (List.range 3).map (fun ch =>
    (List.range 32).map (fun r =>
      (List.range 32).map (fun c =>
        flat.getD (ch * 1024 + r * 32 + c) 0)))

/-- transpose((0, 2, 3, 1)) restricted to one image: channel-first
(3, 32, 32) to channel-last (32, 32, 3). -/
def transposeHWC (chw : List (List (List ℚ))) : Image :=
  (List.range 32).map (fun r =>
    (List.range 32).map (fun c =>
      (List.range 3).map (fun ch =>
        ((chw.getD ch []).getD r []).getD c 0)))

/-- data.reshape((-1, 3, 32, 32)).transpose((0, 2, 3, 1)): the rows are
flattened row-major, the total size must divide into 3072-entry images
(ValueError otherwise), and each slice becomes one channel-last image. -/
def reshapeImages (rows : List (List ℚ)) : Option (List Image) :=
  let flat := rows.flatten
  if flat.length % 3072 = 0 then
    some ((List.range (flat.length / 3072)).map (fun i =>
      transposeHWC (reshapeCHW ((flat.drop (i * 3072)).take 3072))))
  else none

/-- Pixel access img[r][c][ch] on a channel-last image. -/
def pixel (img : Image) (r c ch : ℕ) : ℚ :=
  ((img.getD r []).getD c []).getD ch 0

/-- One returned dataset dict with keys data and labels. -/
structure SplitSet where
  data : List Image
  labels : Labels
deriving DecidableEq

/-- The split block of load: M = int((1 - valid_ratio) * N) with
N = len(data_set); the first M rows (reshaped) and labels[:M] form the
training set, the rest the validation set. -/
def splitSets (dataSet : List (List ℚ)) (labels : Labels) (vr : ℚ) :
    Option (SplitSet × SplitSet) :=
  let m := splitIndex vr dataSet.length
  match reshapeImages (dataSet.take m), reshapeImages (dataSet.drop m) with
  | some trainImgs, some validImgs =>
      some ({ data := trainImgs, labels := labelsTake m labels },
            { data := validImgs, labels := labelsDrop m labels })
  | _, _ => none

/-- The test block of load: read test_batch, cast, reshape and
transpose identically, encode labels as one_hot dictates. -/
def makeTestSet (dir : Dir) (one_hot : Bool) : Except LoadErr SplitSet :=
  match lookupFile dir "test_batch" with
  | none => Except.error (LoadErr.fileNotFound "test_batch")
  | some b =>
      match reshapeImages b.data, encodeLabels one_hot b.labels with
      | some imgs, some lbs => Except.ok { data := imgs, labels := lbs }
      | _, _ => Except.error LoadErr.valueError

/-- One iteration of the batch loop of load: read the file, stack its
data onto the accumulator, encode and concatenate its labels. -/
def readBatch (dir : Dir) (one_hot : Bool) (name : String)
    (acc : Option (List (List ℚ) × Labels)) :
    Except LoadErr (Option (List (List ℚ) × Labels)) :=
  match lookupFile dir name with
  | none => Except.error (LoadErr.fileNotFound name)
  | some batch =>
      match encodeLabels one_hot batch.labels with
      | none => Except.error LoadErr.valueError
      | some bl =>
          match acc with
          | none => Except.ok (some (batch.data, bl))
          | some (d, l) =>
              match vstack d batch.data, concatLabels l bl with
              | some d2, some l2 => Except.ok (some (d2, l2))
              | _, _ => Except.error LoadErr.valueError

/-- The batch loop of load over data_batch_1 .. data_batch_5. -/
def readBatches (dir : Dir) (one_hot : Bool) :
    Except LoadErr (List (List ℚ) × Labels) :=
  match batchFiles.foldlM (fun acc name => readBatch dir one_hot name acc) none with
  | Except.ok (some r) => Except.ok r
  | Except.ok none => Except.error LoadErr.valueError
  | Except.error e => Except.error e

/-- Failing numpy operations raise ValueError-class errors. -/
def optErr {α : Type} : Option α → Except LoadErr α
  | none => Except.error LoadErr.valueError
  | some a => Except.ok a

/-- load(data_dir, valid_ratio, one_hot, shuffle, dtype).  The order
argument stands for the permutation np.random.permutation(np.arange(N))
would produce; it is consulted only when shuffle is true.  Steps, in
source order: the valid_ratio assertion, the glob count assertion, the
five batch reads, the optional shuffle, the train/validation split, and
the independent test batch read. -/
def load (dir : Dir) (vr : ℚ) (one_hot : Bool) (shuffle : Bool) (order : List ℕ) :
    Except LoadErr (SplitSet × SplitSet × SplitSet) :=
  if ¬ (vr < 1 ∧ 0 ≤ vr) then
    Except.error (LoadErr.assertionError "valid_ratio must be in [0, 1)")
  else if globCount dir ≠ 5 then
    Except.error (LoadErr.assertionError "Could not find files!")
  else
    (readBatches dir one_hot).bind (fun rl =>
      (optErr (if shuffle then applyShuffle rl.1 rl.2 order
               else some (rl.1, rl.2))).bind (fun dslb =>
        (optErr (splitSets dslb.1 dslb.2 vr)).bind (fun trva =>
          (makeTestSet dir one_hot).bind (fun te =>
            Except.ok (trva.1, trva.2, te)))))

/-- The fixed channel mean [125.3, 123.0, 113.9]. -/
def channelMean : List ℚ := [1253 / 10, 123, 1139 / 10]

/-- The fixed channel standard deviation [63.0, 62.1, 66.7]. -/
def channelStd : List ℚ := [63, 621 / 10, 667 / 10]

/-- Broadcasting (v - mean) / std over the last (channel) axis: one
3-entry channel vector normalized componentwise. -/
def normalizeChannels (v : List ℚ) : List ℚ :=
  (v.zipWith (fun x m => x - m) channelMean).zipWith (fun x s => x / s) channelStd

/-- A dataset tensor of shape (N, 32, 32, 3). -/
abbrev Tensor := List Image

/-- The pure value computed by preprocess: the mean/std normalization
applied to every innermost channel vector. -/
def normalizeTensor (t : Tensor) : Tensor :=
  t.map (fun img => img.map (fun row => row.map normalizeChannels))

/-- Python arrays are mutable heap objects; a heap maps references to
tensors so that in-place mutation is observable. -/
abbrev Ref := ℕ

/-- The heap of live numpy arrays. -/
abbrev Heap := List (Ref × Tensor)

/-- Dereference an array. -/
def heapGet (h : Heap) (r : Ref) : Option Tensor :=
  (h.find? (fun p => p.1 = r)).map Prod.snd

/-- Overwrite the tensor stored at an existing reference. -/
def heapSet (h : Heap) (r : Ref) (t : Tensor) : Heap :=
  h.map (fun p => if p.1 = r then (r, t) else p)

/-- preprocess(dataset): dataset -= mean; dataset /= std; return
dataset.  The in-place augmented assignments overwrite the argument
array on the heap, and the returned reference is the argument itself. -/
def preprocess (h : Heap) (r : Ref) : Option (Heap × Ref) :=
  match heapGet h r with
  | none => none
  | some t => some (heapSet h r (normalizeTensor t), r)

/-- The flat row [0, 1, ..., 3071] of the reshape test. -/
def rangeRow : List ℚ := (List.range 3072).map (fun n : ℕ => (n : ℚ))

/-- A uniform view of both label representations, for stating pairing
facts across one_hot = True and False. -/
def labelList : Labels → List (ℕ ⊕ List ℚ)
  | Labels.ints l => l.map Sum.inl
  | Labels.oneHot m => m.map Sum.inr

/-- Number of label entries. -/
def labelsLen : Labels → ℕ
  | Labels.ints l => l.length
  | Labels.oneHot m => m.length

/-- A batch file with no samples. -/
def emptyBatch : Batch := { data := [], labels := [] }

/-- A well-formed directory with empty batches. -/
def dirE : Dir :=
  [("data_batch_1", emptyBatch), ("data_batch_2", emptyBatch),
   ("data_batch_3", emptyBatch), ("data_batch_4", emptyBatch),
   ("data_batch_5", emptyBatch), ("test_batch", emptyBatch)]

instance {ε α : Type} [DecidableEq ε] [DecidableEq α] : DecidableEq (Except ε α) :=
  fun x y =>
    match x, y with
    | Except.error a, Except.error b =>
        if h : a = b then isTrue (by rw [h])
        else isFalse (fun hc => h (Except.error.injEq a b ▸ hc))
    | Except.error _, Except.ok _ => isFalse (fun hc => Except.noConfusion hc)
    | Except.ok _, Except.error _ => isFalse (fun hc => Except.noConfusion hc)
    | Except.ok a, Except.ok b =>
        if h : a = b then isTrue (by rw [h])
        else isFalse (fun hc => h (Except.ok.injEq a b ▸ hc))

/-- A directory whose five batch-like files match data_batch_* but are
not named data_batch_1 .. data_batch_5. -/
def weirdDir : Dir :=
  [("data_batch_A", emptyBatch), ("data_batch_B", emptyBatch),
   ("data_batch_C", emptyBatch), ("data_batch_D", emptyBatch),
   ("data_batch_E", emptyBatch), ("test_batch", emptyBatch)]

/-- Five batches whose labels all attain maximum 2, and a test batch
with maximum 4: widths are inferred per batch. -/
def dirSameMax : Dir :=
  [("data_batch_1", { data := [], labels := [2] }),
   ("data_batch_2", { data := [], labels := [0, 2] }),
   ("data_batch_3", { data := [], labels := [2] }),
   ("data_batch_4", { data := [], labels := [1, 2] }),
   ("data_batch_5", { data := [], labels := [2] }),
   ("test_batch", { data := [], labels := [4] })]

/-- Like dirSameMax, but the first batch attains maximum 1 while the
others attain 2, so the one-hot widths disagree. -/
def dirDiffMax : Dir :=
  [("data_batch_1", { data := [], labels := [1] }),
   ("data_batch_2", { data := [], labels := [2] }),
   ("data_batch_3", { data := [], labels := [2] }),
   ("data_batch_4", { data := [], labels := [2] }),
   ("data_batch_5", { data := [], labels := [2] }),
   ("test_batch", { data := [], labels := [4] })]

/-! ## Helper lemmas -/

theorem getD_range_map {α : Type} (f : ℕ → α) (d : α) {n i : ℕ} (h : i < n) :
    ((List.range n).map f).getD i d = f i := by
  simp [List.getD_eq_getElem?_getD, List.getElem?_map, List.getElem?_range, h]

theorem getD_map_get {α β : Type} (f : α → β) (d : β) (L : List α) (i : Fin L.length) :
    (L.map f).getD i d = f (L.get i) := by
  simp [List.getD_eq_getElem?_getD, List.getElem?_map, List.getElem?_eq_getElem i.isLt]

theorem oneHotRow_length (k l : ℕ) : (oneHotRow k l).length = k := by
  simp [oneHotRow]

theorem oneHotRow_getD (k l : ℕ) {j : ℕ} (hj : j < k) :
    (oneHotRow k l).getD j 0 = if j = l then 1 else 0 := by
  exact getD_range_map _ _ hj

theorem oneHotRow_sum (k l : ℕ) : (oneHotRow k l).sum = if l < k then 1 else 0 := by
  induction k with
  | zero => simp [oneHotRow]
  | succ k ih =>
      rw [oneHotRow, List.range_succ, List.map_append, List.sum_append]
      rw [oneHotRow] at ih
      rw [ih]
      rcases Nat.lt_trichotomy l k with h | h | h
      · have hk : k ≠ l := by omega
        have hs : l < k + 1 := by omega
        simp [h, hk, hs]
      · subst h
        simp
      · have hk : k ≠ l := by omega
        have hs : ¬ l < k := by omega
        have hs1 : ¬ l < k + 1 := by omega
        simp [hk, hs, hs1]

/-! ## C2: one_hotify with explicit class count -/

/-- C2: for every label sequence L of length N whose values all lie in
[0, k), one_hotify(L, k) returns an N-by-k matrix in which row i is 0
everywhere except a single 1 at column L[i], so every row sums to 1. -/
theorem c2_one_hotify_rows (L : List ℕ) (k : ℕ) (hk : ∀ l ∈ L, l < k) :
    ∃ m, one_hotify L (some k) = some m ∧
      m.length = L.length ∧
      ∀ (i : Fin L.length),
        (m.getD i []).length = k ∧
        (∀ j < k, (m.getD i []).getD j 0 = if j = L.get i then 1 else 0) ∧
        (m.getD i []).sum = 1 := by
  refine ⟨L.map (oneHotRow k), ?_, by simp, ?_⟩
  · have hall : L.all (fun l => l < k) = true := by
      rw [List.all_eq_true]
      intro l hl
      exact decide_eq_true (hk l hl)
    simp [one_hotify, hall]
  · intro i
    rw [getD_map_get]
    refine ⟨oneHotRow_length k _, fun j hj => oneHotRow_getD k _ hj, ?_⟩
    rw [oneHotRow_sum]
    have hmem : L.get i ∈ L := List.get_mem L i.1 i.isLt
    rw [if_pos (hk (L.get i) hmem)]

/-- Witness for C2 at L = [0, 2, 1], k = 3. -/
theorem c2_one_hotify_rows_witness :
    (∀ l ∈ [0, 2, 1], l < 3) ∧
      (∃ m, one_hotify [0, 2, 1] (some 3) = some m ∧
        m.length = ([0, 2, 1] : List ℕ).length ∧
        ∀ (i : Fin ([0, 2, 1] : List ℕ).length),
          (m.getD i []).length = 3 ∧
          (∀ j < 3, (m.getD i []).getD j 0 =
            if j = ([0, 2, 1] : List ℕ).get i then 1 else 0) ∧
          (m.getD i []).sum = 1) :=
  ⟨by decide, c2_one_hotify_rows [0, 2, 1] 3 (by decide)⟩

/-! ## C9: one_hotify with inferred class count -/

/-- C9: for every non-empty label sequence L, one_hotify(L, None)
infers the class count as max(L) + 1, so every row of the returned
matrix has exactly max(L) + 1 entries. -/
theorem c9_one_hotify_inferred (L : List ℕ) (hL : L ≠ []) :
    ∃ m, one_hotify L none = some m ∧ m.length = L.length ∧
      ∀ row ∈ m, row.length = L.foldl max 0 + 1 := by
  match L, hL with
  | l :: ls, _ =>
      refine ⟨(l :: ls).map (oneHotRow ((l :: ls).foldl max 0 + 1)), rfl, by simp, ?_⟩
      intro row hrow
      rcases List.mem_map.mp hrow with ⟨a, _, rfl⟩
      exact oneHotRow_length _ _

/-- Witness for C9 at L = [3, 1, 2]: the inferred width is 4. -/
theorem c9_one_hotify_inferred_witness :
    ([3, 1, 2] : List ℕ) ≠ [] ∧
      (∃ m, one_hotify [3, 1, 2] none = some m ∧
        m.length = ([3, 1, 2] : List ℕ).length ∧
        ∀ row ∈ m, row.length = ([3, 1, 2] : List ℕ).foldl max 0 + 1) :=
  ⟨by decide, c9_one_hotify_inferred [3, 1, 2] (by decide)⟩

/-! ## C3: reshape and transpose -/

theorem flatten_slice (rows : List (List ℚ)) (hrows : ∀ row ∈ rows, row.length = 3072) :
    ∀ i < rows.length, (rows.flatten.drop (i * 3072)).take 3072 = rows.getD i [] := by
  induction rows with
  | nil => intro i hi; simp at hi
  | cons r rs ih =>
      intro i hi
      have hr : r.length = 3072 := hrows r (by simp)
      cases i with
      | zero =>
          rw [List.flatten_cons, Nat.zero_mul, List.drop_zero, List.getD_cons_zero,
            List.take_append_eq_append_take, hr]
          simp [List.take_of_length_le (le_of_eq hr)]
      | succ i =>
          rw [List.flatten_cons, List.drop_append_eq_append_drop, List.getD_cons_succ]
          have h1 : r.drop ((i + 1) * 3072) = [] := by
            apply List.drop_eq_nil_of_le
            rw [hr]
            nlinarith
          have h2 : (i + 1) * 3072 - r.length = i * 3072 := by
            rw [hr]
            ring_nf
            omega
          rw [h1, h2, List.nil_append]
          exact ih (fun row hrow => hrows row (List.mem_cons_of_mem r hrow)) i
            (Nat.lt_of_succ_lt_succ hi)

theorem reshape_pixel (flat : List ℚ) {r c ch : ℕ}
    (hr : r < 32) (hc : c < 32) (hch : ch < 3) :
    pixel (transposeHWC (reshapeCHW flat)) r c ch =
      flat.getD (ch * 1024 + r * 32 + c) 0 := by
  unfold pixel transposeHWC reshapeCHW
  rw [getD_range_map _ _ hr, getD_range_map _ _ hc, getD_range_map _ _ hch,
    getD_range_map _ _ hch, getD_range_map _ _ hr, getD_range_map _ _ hc]

/-- C3: every image produced by the reshape-and-transpose step of load
is its flat 3072-entry row read as (3 channels, 32 rows, 32 cols) and
transposed to channel-last: image[r][c][ch] = row[ch*1024 + r*32 + c]. -/
theorem c3_reshape_images (rows : List (List ℚ))
    (hrows : ∀ row ∈ rows, row.length = 3072) :
    ∃ imgs, reshapeImages rows = some imgs ∧ imgs.length = rows.length ∧
      ∀ i < rows.length, ∀ r < 32, ∀ c < 32, ∀ ch < 3,
        pixel (imgs.getD i []) r c ch =
          (rows.getD i []).getD (ch * 1024 + r * 32 + c) 0 := by
  have hflat : rows.flatten.length = rows.length * 3072 := by
    rw [List.length_flatten]
    induction rows with
    | nil => simp
    | cons r rs ih =>
        have hr : r.length = 3072 := hrows r (by simp)
        rw [List.map_cons, List.sum_cons, hr,
          ih (fun row hrow => hrows row (List.mem_cons_of_mem r hrow)),
          List.length_cons]
        ring
  have hmod : rows.flatten.length % 3072 = 0 := by
    rw [hflat]
    exact Nat.mul_mod_left rows.length 3072
  have hdiv : rows.flatten.length / 3072 = rows.length := by
    rw [hflat]
    exact Nat.mul_div_cancel rows.length (by norm_num)
  refine ⟨(List.range (rows.flatten.length / 3072)).map (fun i =>
      transposeHWC (reshapeCHW ((rows.flatten.drop (i * 3072)).take 3072))), ?_, ?_, ?_⟩
  · simp only [reshapeImages]
    rw [if_pos hmod]
  · rw [List.length_map, List.length_range, hdiv]
  · intro i hi r hr c hc ch hch
    have hget : ((List.range (rows.flatten.length / 3072)).map (fun i =>
        transposeHWC (reshapeCHW ((rows.flatten.drop (i * 3072)).take 3072)))).getD i [] =
        transposeHWC (reshapeCHW ((rows.flatten.drop (i * 3072)).take 3072)) :=
      getD_range_map _ _ (hdiv ▸ hi)
    rw [hget, reshape_pixel _ hr hc hch, flatten_slice rows hrows i hi]

theorem rangeRow_length : rangeRow.length = 3072 := by
  unfold rangeRow
  rw [List.length_map, List.length_range]

theorem rangeRow_getD {i : ℕ} (h : i < 3072) : rangeRow.getD i 0 = (i : ℚ) := by
  unfold rangeRow
  exact getD_range_map _ _ h

/-- Witness for C3 at the single flat row [0, ..., 3071]: the resulting
image satisfies image[r][c][ch] = ch*1024 + r*32 + c. -/
theorem c3_reshape_images_witness :
    (∀ row ∈ [rangeRow], row.length = 3072) ∧
      (∃ imgs, reshapeImages [rangeRow] = some imgs ∧
        imgs.length = [rangeRow].length ∧
        ∀ i < [rangeRow].length, ∀ r < 32, ∀ c < 32, ∀ ch < 3,
          pixel (imgs.getD i []) r c ch =
            ([rangeRow].getD i []).getD (ch * 1024 + r * 32 + c) 0) ∧
      (∀ r < 32, ∀ c < 32, ∀ ch < 3,
        ([rangeRow].getD 0 []).getD (ch * 1024 + r * 32 + c) 0 =
          ((ch * 1024 + r * 32 + c : ℕ) : ℚ)) := by
  have hrows : ∀ row ∈ [rangeRow], row.length = 3072 := by
    intro row hrow
    rw [List.mem_singleton] at hrow
    rw [hrow, rangeRow_length]
  refine ⟨hrows, c3_reshape_images [rangeRow] hrows, ?_⟩
  intro r hr c hc ch hch
  rw [List.getD_cons_zero, rangeRow_getD (by omega)]

/-! ## C1: the train/validation split -/

theorem splitIndex_eq_floor (vr : ℚ) (n : ℕ) (h0 : 0 ≤ vr) (h1 : vr < 1) :
    splitIndex vr n = ⌊(1 - vr) * n⌋₊ := by
  unfold splitIndex pyInt
  have hq : ¬ ((1 - vr) * n < 0) := by
    push_neg
    apply mul_nonneg (by linarith)
    exact_mod_cast Nat.cast_nonneg n
  rw [if_neg hq]
  exact Int.floor_toNat _

theorem splitIndex_le (vr : ℚ) (n : ℕ) (h0 : 0 ≤ vr) (h1 : vr < 1) :
    splitIndex vr n ≤ n := by
  rw [splitIndex_eq_floor vr n h0 h1]
  calc ⌊(1 - vr) * n⌋₊ ≤ ⌊(n : ℚ)⌋₊ := by
        apply Nat.floor_le_floor
        apply mul_le_of_le_one_left (by exact_mod_cast Nat.cast_nonneg n)
        linarith
    _ = n := Nat.floor_natCast n

set_option maxHeartbeats 1000000 in
/-- C1: with 0 <= valid_ratio < 1 and N read training rows, the split
index M is floor((1 - valid_ratio) * N); the training set is exactly
the first M (post-shuffle) rows, reshaped, with labels[:M], and the
validation set exactly the remaining N - M rows with labels[M:]. -/
theorem c1_split_sets (dataSet : List (List ℚ)) (labels : Labels) (vr : ℚ)
    (h0 : 0 ≤ vr) (h1 : vr < 1) (hrows : ∀ row ∈ dataSet, row.length = 3072) :
    splitIndex vr dataSet.length = ⌊(1 - vr) * dataSet.length⌋₊ ∧
    ∃ train valid, splitSets dataSet labels vr = some (train, valid) ∧
      reshapeImages (dataSet.take (splitIndex vr dataSet.length)) = some train.data ∧
      reshapeImages (dataSet.drop (splitIndex vr dataSet.length)) = some valid.data ∧
      train.data.length = splitIndex vr dataSet.length ∧
      valid.data.length = dataSet.length - splitIndex vr dataSet.length ∧
      train.labels = labelsTake (splitIndex vr dataSet.length) labels ∧
      valid.labels = labelsDrop (splitIndex vr dataSet.length) labels := by
  refine ⟨splitIndex_eq_floor vr dataSet.length h0 h1, ?_⟩
  obtain ⟨ti, hti, htl, -⟩ := c3_reshape_images (dataSet.take (splitIndex vr dataSet.length))
    (fun row hrow => hrows row (List.take_subset _ _ hrow))
  obtain ⟨vi, hvi, hvl, -⟩ := c3_reshape_images (dataSet.drop (splitIndex vr dataSet.length))
    (fun row hrow => hrows row (List.drop_subset _ _ hrow))
  refine ⟨⟨ti, labelsTake (splitIndex vr dataSet.length) labels⟩,
    ⟨vi, labelsDrop (splitIndex vr dataSet.length) labels⟩, ?_, hti, hvi, ?_, ?_, rfl, rfl⟩
  · simp only [splitSets]
    rw [hti, hvi]
  · rw [htl, List.length_take]
    exact Nat.min_eq_left (splitIndex_le vr dataSet.length h0 h1)
  · rw [hvl, List.length_drop]

/-- Witness for C1 on 10 rows (the synthetic 5 x 2 scenario of the
spec) at valid_ratio = 1/2, together with the concrete split indices
M = 10 for valid_ratio = 0 and M = 5 for valid_ratio = 1/2. -/
theorem c1_split_sets_witness :
    (0 : ℚ) ≤ 1 / 2 ∧ (1 : ℚ) / 2 < 1 ∧
    splitIndex 0 10 = 10 ∧ splitIndex (1 / 2) 10 = 5 ∧
    (splitIndex (1 / 2) (List.replicate 10 (List.replicate 3072 (0 : ℚ))).length =
        ⌊(1 - 1 / 2) * ((List.replicate 10 (List.replicate 3072 (0 : ℚ))).length : ℚ)⌋₊ ∧
      ∃ train valid,
        splitSets (List.replicate 10 (List.replicate 3072 (0 : ℚ)))
          (Labels.ints (List.replicate 10 0)) (1 / 2) = some (train, valid) ∧
        reshapeImages ((List.replicate 10 (List.replicate 3072 (0 : ℚ))).take
          (splitIndex (1 / 2) (List.replicate 10 (List.replicate 3072 (0 : ℚ))).length)) =
          some train.data ∧
        reshapeImages ((List.replicate 10 (List.replicate 3072 (0 : ℚ))).drop
          (splitIndex (1 / 2) (List.replicate 10 (List.replicate 3072 (0 : ℚ))).length)) =
          some valid.data ∧
        train.data.length =
          splitIndex (1 / 2) (List.replicate 10 (List.replicate 3072 (0 : ℚ))).length ∧
        valid.data.length =
          (List.replicate 10 (List.replicate 3072 (0 : ℚ))).length -
            splitIndex (1 / 2) (List.replicate 10 (List.replicate 3072 (0 : ℚ))).length ∧
        train.labels = labelsTake
          (splitIndex (1 / 2) (List.replicate 10 (List.replicate 3072 (0 : ℚ))).length)
          (Labels.ints (List.replicate 10 0)) ∧
        valid.labels = labelsDrop
          (splitIndex (1 / 2) (List.replicate 10 (List.replicate 3072 (0 : ℚ))).length)
          (Labels.ints (List.replicate 10 0))) :=
  ⟨by decide, by decide, by decide, by decide,
    c1_split_sets (List.replicate 10 (List.replicate 3072 (0 : ℚ)))
      (Labels.ints (List.replicate 10 0)) (1 / 2) (by decide) (by decide)
      (fun row hrow => by
        rw [List.eq_of_mem_replicate hrow]
        exact List.length_replicate 3072 0)⟩

/-! ## C4: shuffling preserves the data-label pairing -/

theorem getD_map_comm {α β : Type} (f : α → β) (l : List α) (d : α) (i : ℕ) :
    (l.map f).getD i (f d) = f (l.getD i d) := by
  rw [List.getD_eq_getElem?_getD, List.getD_eq_getElem?_getD, List.getElem?_map]
  cases h : l[i]? <;> simp

theorem map_getD_range {α : Type} (a : List α) (d : α) :
    (List.range a.length).map (fun i => a.getD i d) = a := by
  apply List.ext_getElem
  · rw [List.length_map, List.length_range]
  · intro i h1 h2
    rw [List.getElem_map, List.getElem_range,
      List.getD_eq_getElem?_getD, List.getElem?_eq_getElem h2]
    rfl

theorem map_pair_getD_eq_zip {α β : Type} (a : List α) (b : List β) (da : α) (db : β)
    (hlen : b.length = a.length) :
    (List.range a.length).map (fun i => (a.getD i da, b.getD i db)) = a.zip b := by
  apply List.ext_getElem
  · rw [List.length_map, List.length_range, List.length_zip, hlen, Nat.min_self]
  · intro i h1 h2
    rw [List.length_map, List.length_range] at h1
    have hib : i < b.length := by rw [hlen]; exact h1
    rw [List.getElem_map, List.getElem_range, List.getElem_zip,
      List.getD_eq_getElem?_getD, List.getElem?_eq_getElem h1,
      List.getD_eq_getElem?_getD, List.getElem?_eq_getElem hib]
    rfl

theorem npIndex_of_perm {α : Type} (d : α) (a : List α) (order : List ℕ)
    (hperm : order.Perm (List.range a.length)) :
    npIndex d a order = some (order.map (fun i => a.getD i d)) := by
  unfold npIndex
  rw [if_pos]
  rw [List.all_eq_true]
  intro i hi
  exact decide_eq_true (List.mem_range.mp (hperm.mem_iff.mp hi))

theorem map_getD_perm {α : Type} (d : α) (a : List α) (order : List ℕ)
    (hperm : order.Perm (List.range a.length)) :
    (order.map (fun i => a.getD i d)).Perm a := by
  have h := hperm.map (fun i => a.getD i d)
  rw [map_getD_range a d] at h
  exact h

/-- C4: shuffling with one permutation of [0, N) reorders data and
labels together: the multiset of (data row, label) pairs is unchanged
(so every pair reappears intact somewhere), and in particular the
multiset of labels is unchanged. -/
theorem c4_shuffle_pairing (dataSet : List (List ℚ)) (labels : Labels)
    (order : List ℕ) (hperm : order.Perm (List.range dataSet.length))
    (hlen : labelsLen labels = dataSet.length) :
    ∃ ds lb, applyShuffle dataSet labels order = some (ds, lb) ∧
      (ds.zip (labelList lb)).Perm (dataSet.zip (labelList labels)) ∧
      (labelList lb).Perm (labelList labels) := by
  cases labels with
  | ints l =>
      simp only [labelsLen] at hlen
      have hperm2 : order.Perm (List.range l.length) := by rw [hlen]; exact hperm
      have hll : labelList (Labels.ints (order.map (fun i => l.getD i 0))) =
          order.map (fun i => (labelList (Labels.ints l)).getD i (Sum.inl 0)) := by
        simp only [labelList, List.map_map]
        exact List.map_congr_left (fun i _ => (getD_map_comm Sum.inl l 0 i).symm)
      have hbl : (labelList (Labels.ints l)).length = dataSet.length := by
        simp only [labelList, List.length_map]
        exact hlen
      refine ⟨order.map (fun i => dataSet.getD i []),
        Labels.ints (order.map (fun i => l.getD i 0)), ?_, ?_, ?_⟩
      · simp only [applyShuffle, reindexLabels, npIndex_of_perm [] dataSet order hperm,
          npIndex_of_perm 0 l order hperm2, Option.map_some']
      · rw [hll, List.zip_map']
        have h2 := hperm.map
          (fun i => (dataSet.getD i [], (labelList (Labels.ints l)).getD i (Sum.inl 0)))
        rw [map_pair_getD_eq_zip dataSet (labelList (Labels.ints l)) [] (Sum.inl 0) hbl] at h2
        exact h2
      · rw [hll]
        exact map_getD_perm (Sum.inl 0) (labelList (Labels.ints l)) order (by rw [hbl]; exact hperm)
  | oneHot m =>
      simp only [labelsLen] at hlen
      have hperm2 : order.Perm (List.range m.length) := by rw [hlen]; exact hperm
      have hll : labelList (Labels.oneHot (order.map (fun i => m.getD i []))) =
          order.map (fun i => (labelList (Labels.oneHot m)).getD i (Sum.inr [])) := by
        simp only [labelList, List.map_map]
        exact List.map_congr_left (fun i _ => (getD_map_comm Sum.inr m [] i).symm)
      have hbl : (labelList (Labels.oneHot m)).length = dataSet.length := by
        simp only [labelList, List.length_map]
        exact hlen
      refine ⟨order.map (fun i => dataSet.getD i []),
        Labels.oneHot (order.map (fun i => m.getD i [])), ?_, ?_, ?_⟩
      · simp only [applyShuffle, reindexLabels, npIndex_of_perm [] dataSet order hperm,
          npIndex_of_perm [] m order hperm2, Option.map_some']
      · rw [hll, List.zip_map']
        have h2 := hperm.map
          (fun i => (dataSet.getD i [], (labelList (Labels.oneHot m)).getD i (Sum.inr [])))
        rw [map_pair_getD_eq_zip dataSet (labelList (Labels.oneHot m)) [] (Sum.inr []) hbl] at h2
        exact h2
      · rw [hll]
        exact map_getD_perm (Sum.inr []) (labelList (Labels.oneHot m)) order
          (by rw [hbl]; exact hperm)

/-- Witness for C4: three rows with integer labels shuffled by the
permutation [2, 0, 1]. -/
theorem c4_shuffle_pairing_witness :
    ([2, 0, 1] : List ℕ).Perm (List.range ([[1], [2], [3]] : List (List ℚ)).length) ∧
      labelsLen (Labels.ints [10, 20, 30]) = ([[1], [2], [3]] : List (List ℚ)).length ∧
      (∃ ds lb, applyShuffle [[1], [2], [3]] (Labels.ints [10, 20, 30]) [2, 0, 1] =
          some (ds, lb) ∧
        (ds.zip (labelList lb)).Perm
          (([[1], [2], [3]] : List (List ℚ)).zip (labelList (Labels.ints [10, 20, 30]))) ∧
        (labelList lb).Perm (labelList (Labels.ints [10, 20, 30]))) :=
  ⟨by decide, by decide,
    c4_shuffle_pairing [[1], [2], [3]] (Labels.ints [10, 20, 30]) [2, 0, 1]
      (by decide) (by decide)⟩

/-! ## C6: the valid_ratio assertion fires first -/

/-- C6: for valid_ratio outside [0, 1), load fails with the
valid_ratio assertion message for every directory whatsoever, i.e.
before any file is consulted. -/
theorem c6_invalid_ratio (dir : Dir) (vr : ℚ) (one_hot shuffle : Bool)
    (order : List ℕ) (h : vr < 0 ∨ 1 ≤ vr) :
    load dir vr one_hot shuffle order =
      Except.error (LoadErr.assertionError "valid_ratio must be in [0, 1)") := by
  unfold load
  rw [if_pos]
  rintro ⟨h1, h2⟩
  rcases h with h | h
  · linarith
  · linarith

/-- Witness for C6 at valid_ratio = 1 on the empty directory. -/
theorem c6_invalid_ratio_witness :
    ((1 : ℚ) < 0 ∨ 1 ≤ (1 : ℚ)) ∧
      load [] 1 true false [] =
        Except.error (LoadErr.assertionError "valid_ratio must be in [0, 1)") :=
  ⟨by decide, c6_invalid_ratio [] 1 true false [] (by decide)⟩

/-! ## C5: the test set is the full, untouched test batch -/

theorem except_bind_ok {ε α β : Type} (x : Except ε α) (f : α → Except ε β) (b : β)
    (h : x.bind f = Except.ok b) : ∃ a, x = Except.ok a ∧ f a = Except.ok b := by
  cases x with
  | error e => simp [Except.bind] at h
  | ok a => exact ⟨a, rfl, h⟩

theorem makeTestSet_ok (dir : Dir) (one_hot : Bool) (te : SplitSet)
    (h : makeTestSet dir one_hot = Except.ok te) :
    ∃ b, lookupFile dir "test_batch" = some b ∧
      reshapeImages b.data = some te.data ∧
      encodeLabels one_hot b.labels = some te.labels := by
  unfold makeTestSet at h
  split at h
  · cases h
  · next b hb =>
      split at h
      · next imgs lbs h1 h2 =>
          injection h with h3
          subst h3
          exact ⟨b, hb, h1, h2⟩
      · cases h

/-- C5: whenever load succeeds, the returned test set is precisely the
content of the test_batch file, reshaped and transposed like the
training data, with its labels encoded as one_hot dictates -- for every
valid_ratio, shuffle flag and permutation, so it is never shuffled or
split. -/
theorem c5_test_set (dir : Dir) (vr : ℚ) (one_hot shuffle : Bool) (order : List ℕ)
    (tr va te : SplitSet)
    (h : load dir vr one_hot shuffle order = Except.ok (tr, va, te)) :
    ∃ b, lookupFile dir "test_batch" = some b ∧
      reshapeImages b.data = some te.data ∧
      encodeLabels one_hot b.labels = some te.labels := by
  unfold load at h
  by_cases h1 : ¬ (vr < 1 ∧ 0 ≤ vr)
  · rw [if_pos h1] at h
    simp at h
  rw [if_neg h1] at h
  by_cases h2 : globCount dir ≠ 5
  · rw [if_pos h2] at h
    simp at h
  rw [if_neg h2] at h
  obtain ⟨rl, hrb, h⟩ := except_bind_ok _ _ _ h
  obtain ⟨dslb, hsh, h⟩ := except_bind_ok _ _ _ h
  obtain ⟨trva, hsp, h⟩ := except_bind_ok _ _ _ h
  obtain ⟨te1, hte, h⟩ := except_bind_ok _ _ _ h
  injection h with h3
  have hte2 : te1 = te := congrArg (fun p => p.2.2) h3
  rw [hte2] at hte
  exact makeTestSet_ok dir one_hot te hte

/-- Witness for C5: load succeeds on the empty-batch directory and the
test set is the transformed content of its test_batch file. -/
theorem c5_test_set_witness :
    load dirE 0 false false [] =
      Except.ok ({ data := [], labels := Labels.ints [] },
        { data := [], labels := Labels.ints [] },
        { data := [], labels := Labels.ints [] }) ∧
      (∃ b, lookupFile dirE "test_batch" = some b ∧
        reshapeImages b.data =
          some ({ data := [], labels := Labels.ints [] } : SplitSet).data ∧
        encodeLabels false b.labels =
          some ({ data := [], labels := Labels.ints [] } : SplitSet).labels) :=
  ⟨by decide, c5_test_set dirE 0 false false []
    { data := [], labels := Labels.ints [] }
    { data := [], labels := Labels.ints [] }
    { data := [], labels := Labels.ints [] } (by decide)⟩

/-! ## C7: the glob count assertion and the fixed indexed file list -/

/-- C7: with a valid valid_ratio, a glob count other than 5 fails the
Could-not-find-files assertion; and the files actually read are the
explicitly indexed data_batch_1 .. data_batch_5 independent of the glob
result, so a directory holding five differently named batch-like files
passes the count check yet the first indexed read fails not-found. -/
theorem c7_glob_count (dir : Dir) (vr : ℚ) (one_hot shuffle : Bool)
    (order : List ℕ) (h0 : 0 ≤ vr) (h1 : vr < 1) (hg : globCount dir ≠ 5) :
    load dir vr one_hot shuffle order =
        Except.error (LoadErr.assertionError "Could not find files!") ∧
      globCount weirdDir = 5 ∧
      load weirdDir 0 true false [] =
        Except.error (LoadErr.fileNotFound "data_batch_1") := by
  refine ⟨?_, by decide, by decide⟩
  unfold load
  rw [if_neg (not_not_intro ⟨h1, h0⟩), if_pos hg]

/-- Witness for C7 at the empty directory (glob count 0). -/
theorem c7_glob_count_witness :
    ((0 : ℚ) ≤ 0 ∧ (0 : ℚ) < 1 ∧ globCount [] ≠ 5) ∧
      (load [] 0 true false [] =
          Except.error (LoadErr.assertionError "Could not find files!") ∧
        globCount weirdDir = 5 ∧
        load weirdDir 0 true false [] =
          Except.error (LoadErr.fileNotFound "data_batch_1")) :=
  ⟨by decide, c7_glob_count [] 0 true false [] (by decide) (by decide) (by decide)⟩

/-! ## C8: preprocess normalizes in place -/

theorem heapGet_cons (a : Ref × Tensor) (ps : Heap) (r : Ref) :
    heapGet (a :: ps) r = if a.1 = r then some a.2 else heapGet ps r := by
  unfold heapGet
  by_cases hp : a.1 = r
  · rw [List.find?_cons_of_pos _ (by simp [hp]), if_pos hp]
    rfl
  · rw [List.find?_cons_of_neg _ (by simp [hp]), if_neg hp]

theorem heapGet_heapSet (h : Heap) (r : Ref) (t t' : Tensor)
    (hr : heapGet h r = some t) :
    heapGet (heapSet h r t') r = some t' := by
  induction h with
  | nil => simp [heapGet, List.find?] at hr
  | cons a ps ih =>
      rw [heapGet_cons] at hr
      unfold heapSet
      rw [List.map_cons, heapGet_cons]
      by_cases hp : a.1 = r
      · rw [if_pos hp]
        simp [hp]
      · rw [if_neg hp] at hr
        rw [if_neg (by simp [hp])]
        exact ih hr

theorem normalizeChannels_getD (v : List ℚ) (hv : v.length = 3) :
    ∀ i < 3, (normalizeChannels v).getD i 0 =
      (v.getD i 0 - channelMean.getD i 0) / channelStd.getD i 0 := by
  match v, hv with
  | [a, b, c], _ =>
      intro i hi
      interval_cases i <;>
        simp [normalizeChannels, channelMean, channelStd, List.zipWith]

/-- C8: preprocess overwrites the argument array on the heap with the
value obtained by subtracting the channel means [125.3, 123.0, 113.9]
and dividing by the channel standard deviations [63.0, 62.1, 66.7]
along the last axis, and returns that same reference; applying the
normalization twice differs from applying it once. -/
theorem c8_preprocess (h : Heap) (r : Ref) (t : Tensor)
    (hr : heapGet h r = some t) :
    preprocess h r = some (heapSet h r (normalizeTensor t), r) ∧
      heapGet (heapSet h r (normalizeTensor t)) r = some (normalizeTensor t) ∧
      (∀ v : List ℚ, v.length = 3 → ∀ i < 3,
        (normalizeChannels v).getD i 0 =
          (v.getD i 0 - channelMean.getD i 0) / channelStd.getD i 0) ∧
      normalizeTensor (normalizeTensor [[[[0, 0, 0]]]]) ≠
        normalizeTensor [[[[0, 0, 0]]]] := by
  refine ⟨?_, heapGet_heapSet h r t _ hr, normalizeChannels_getD, by decide⟩
  unfold preprocess
  rw [hr]

/-- Witness for C8 on a one-array heap holding a single channel
vector. -/
theorem c8_preprocess_witness :
    heapGet [(0, [[[[0, 0, 0]]]])] 0 = some [[[[0, 0, 0]]]] ∧
      (preprocess [(0, [[[[0, 0, 0]]]])] 0 =
          some (heapSet [(0, [[[[0, 0, 0]]]])] 0 (normalizeTensor [[[[0, 0, 0]]]]), 0) ∧
        heapGet (heapSet [(0, [[[[0, 0, 0]]]])] 0 (normalizeTensor [[[[0, 0, 0]]]])) 0 =
          some (normalizeTensor [[[[0, 0, 0]]]]) ∧
        (∀ v : List ℚ, v.length = 3 → ∀ i < 3,
          (normalizeChannels v).getD i 0 =
            (v.getD i 0 - channelMean.getD i 0) / channelStd.getD i 0) ∧
        normalizeTensor (normalizeTensor [[[[0, 0, 0]]]]) ≠
          normalizeTensor [[[[0, 0, 0]]]]) :=
  ⟨by decide, c8_preprocess [(0, [[[[0, 0, 0]]]])] 0 [[[[0, 0, 0]]]] (by decide)⟩

/-! ## C10: per-batch one-hot widths -/

/-- C10: load one-hot encodes each batch separately with an inferred
class count, so concatenation fails whenever two nonempty batches have
different maximum labels; when all five maxima agree, load succeeds
with one-hot width max+1 (3 here, not 10), and the test width is
inferred independently (5 here, differing from the training width). -/
theorem c10_per_batch_widths :
    (∀ (la lb : List ℕ) (A B : List (List ℚ)), la ≠ [] → lb ≠ [] →
        la.foldl max 0 ≠ lb.foldl max 0 →
        one_hotify la none = some A → one_hotify lb none = some B →
        concatLabels (Labels.oneHot A) (Labels.oneHot B) = none) ∧
      load dirSameMax 0 true false [] =
        Except.ok ({ data := [], labels := Labels.oneHot [] },
          { data := [], labels := Labels.oneHot
              [[0, 0, 1], [1, 0, 0], [0, 0, 1], [0, 0, 1],
               [0, 1, 0], [0, 0, 1], [0, 0, 1]] },
          { data := [], labels := Labels.oneHot [[0, 0, 0, 0, 1]] }) ∧
      load dirDiffMax 0 true false [] = Except.error LoadErr.valueError := by
  refine ⟨?_, by decide, by decide⟩
  intro la lb A B ha hb hmax hA hB
  match la, ha, lb, hb with
  | x :: xs, _, y :: ys, _ =>
      simp only [one_hotify, Option.some.injEq] at hA hB
      subst hA
      subst hB
      have hw : sameWidth ((x :: xs).map (oneHotRow ((x :: xs).foldl max 0 + 1)))
          ((y :: ys).map (oneHotRow ((y :: ys).foldl max 0 + 1))) = false := by
        simp only [sameWidth, List.map_cons, List.head?_cons]
        rw [oneHotRow_length, oneHotRow_length]
        simp only [beq_eq_false_iff_ne, ne_eq]
        omega
      simp only [concatLabels]
      rw [hw]
      simp

/-- Witness for C10: two one-element batches with maxima 1 and 2
produce one-hot matrices of widths 2 and 3, whose concatenation
fails. -/
theorem c10_per_batch_widths_witness :
    (([1] : List ℕ) ≠ [] ∧ ([2] : List ℕ) ≠ [] ∧
      ([1] : List ℕ).foldl max 0 ≠ ([2] : List ℕ).foldl max 0 ∧
      one_hotify [1] none = some [[0, 1]] ∧
      one_hotify [2] none = some [[0, 0, 1]]) ∧
      concatLabels (Labels.oneHot [[0, 1]]) (Labels.oneHot [[0, 0, 1]]) = none :=
  ⟨⟨by decide, by decide, by decide, by decide, by decide⟩,
    c10_per_batch_widths.1 [1] [2] [[0, 1]] [[0, 0, 1]]
      (by decide) (by decide) (by decide) (by decide) (by decide)⟩
